import Mathlib

/-!
Verification of `scripts/manage_dependencies.py`.

Python strings are modelled as `List Char` (a Python `str` is a sequence of
code points).  `str.find(pat, start)` is modelled by `pyFind`, which returns
the least index `i ≥ start` at which `pat` occurs, or `none` (Python's `-1`).
-/

namespace ManageDeps

/-- `occursAt pat l i` : the pattern `pat` occurs in `l` at index `i`
(i.e. `pat` is a prefix of `l` with its first `i` characters dropped). -/
def occursAt (pat l : List Char) (i : Nat) : Prop :=
  pat <+: l.drop i

instance (pat l : List Char) (i : Nat) : Decidable (occursAt pat l i) :=
  inferInstanceAs (Decidable (pat <+: l.drop i))

/-- Scan indices `i, i+1, …` (at most `fuel` of them) for the first
occurrence of `pat` in `l`. -/
def firstMatch (pat l : List Char) (i fuel : Nat) : Option Nat :=
  match fuel with
  | 0 => none
  | fuel' + 1 =>
    if occursAt pat l i then some i else firstMatch pat l (i + 1) fuel'

/-- Python's `l.find(pat, start)` for a nonempty pattern: the least `i ≥ start`
with an occurrence of `pat`, as `Option` (`none` for Python's `-1`). -/
def pyFind (l pat : List Char) (start : Nat) : Option Nat :=
  firstMatch pat l start (l.length + 1 - start)

theorem firstMatch_some {pat l : List Char} {i fuel j : Nat}
    (h : firstMatch pat l i fuel = some j) :
    i ≤ j ∧ j < i + fuel ∧ occursAt pat l j ∧
      ∀ k, i ≤ k → k < j → ¬ occursAt pat l k := by
  induction fuel generalizing i with
  | zero => simp [firstMatch] at h
  | succ fuel ih =>
    rw [firstMatch] at h
    by_cases hocc : occursAt pat l i
    · rw [if_pos hocc] at h
      cases h
      exact ⟨le_refl _, by omega, hocc, fun k hk hk' => absurd hk' (by omega)⟩
    · rw [if_neg hocc] at h
      obtain ⟨h1, h2, h3, h4⟩ := ih h
      refine ⟨by omega, by omega, h3, fun k hk hk' => ?_⟩
      rcases Nat.eq_or_lt_of_le hk with rfl | hlt
      · exact hocc
      · exact h4 k hlt hk'

theorem firstMatch_none {pat l : List Char} {i fuel : Nat}
    (h : firstMatch pat l i fuel = none) :
    ∀ k, i ≤ k → k < i + fuel → ¬ occursAt pat l k := by
  induction fuel generalizing i with
  | zero => intro k hk hk'; omega
  | succ fuel ih =>
    rw [firstMatch] at h
    by_cases hocc : occursAt pat l i
    · rw [if_pos hocc] at h; cases h
    · rw [if_neg hocc] at h
      intro k hk hk'
      rcases Nat.eq_or_lt_of_le hk with rfl | hlt
      · exact hocc
      · exact ih h k hlt (by omega)

theorem occursAt_length {pat l : List Char} {i : Nat} (hp : pat ≠ [])
    (h : occursAt pat l i) : i + pat.length ≤ l.length := by
  have hlen := h.length_le
  rw [List.length_drop] at hlen
  rcases Nat.lt_or_ge i l.length with hlt | hge
  · omega
  · exfalso
    have : l.drop i = [] := List.drop_eq_nil_of_le hge
    rw [occursAt, this, List.prefix_nil] at h
    exact hp h

theorem pyFind_some {l pat : List Char} {start j : Nat}
    (h : pyFind l pat start = some j) :
    start ≤ j ∧ occursAt pat l j ∧
      ∀ k, start ≤ k → k < j → ¬ occursAt pat l k := by
  obtain ⟨h1, _, h3, h4⟩ := firstMatch_some h
  exact ⟨h1, h3, h4⟩

theorem pyFind_none {l pat : List Char} {start : Nat} (hp : pat ≠ [])
    (h : pyFind l pat start = none) :
    ∀ k, start ≤ k → ¬ occursAt pat l k := by
  intro k hk hocc
  have hb := occursAt_length hp hocc
  have : k < start + (l.length + 1 - start) := by
    have : pat.length ≠ 0 := fun hz => hp (List.eq_nil_of_length_eq_zero hz)
    omega
  exact firstMatch_none h k hk this hocc

theorem pyFind_of_occurs {l pat : List Char} {start j : Nat} (hp : pat ≠ [])
    (hj : start ≤ j) (hocc : occursAt pat l j) :
    ∃ j', pyFind l pat start = some j' ∧ j' ≤ j := by
  cases hfind : pyFind l pat start with
  | none => exact absurd hocc (pyFind_none hp hfind j hj)
  | some j' =>
    refine ⟨j', rfl, ?_⟩
    by_contra hlt
    exact (pyFind_some hfind).2.2 j hj (by omega) hocc

theorem pyFind_eq_some_of {l pat : List Char} {start j : Nat} (hp : pat ≠ [])
    (hj : start ≤ j) (hocc : occursAt pat l j)
    (hmin : ∀ k, start ≤ k → k < j → ¬ occursAt pat l k) :
    pyFind l pat start = some j := by
  obtain ⟨j', hfind, hle⟩ := pyFind_of_occurs hp hj hocc
  obtain ⟨h1, h2, _⟩ := pyFind_some hfind
  rcases Nat.eq_or_lt_of_le hle with rfl | hlt
  · exact hfind
  · exact absurd h2 (hmin j' h1 hlt)

theorem pyFind_eq_none_of {l pat : List Char} {start : Nat}
    (hmin : ∀ k, start ≤ k → ¬ occursAt pat l k) :
    pyFind l pat start = none := by
  cases hfind : pyFind l pat start with
  | none => rfl
  | some j =>
    obtain ⟨h1, h2, _⟩ := pyFind_some hfind
    exact absurd h2 (hmin j h1)

/-! Occurrence transfer over concatenation. -/

theorem occursAt_append_right (pat l₁ l₂ : List Char) (m : Nat) :
    occursAt pat (l₁ ++ l₂) (l₁.length + m) ↔ occursAt pat l₂ m := by
  unfold occursAt
  rw [List.drop_append_eq_append_drop,
    List.drop_eq_nil_of_le (by omega : l₁.length ≤ l₁.length + m),
    List.nil_append]
  congr! 2
  omega

theorem prefix_append_iff_of_length_le {p l₁ : List Char} (l₂ : List Char)
    (hlen : p.length ≤ l₁.length) : p <+: l₁ ++ l₂ ↔ p <+: l₁ := by
  constructor
  · intro h
    have heq := List.prefix_iff_eq_take.mp h
    rw [List.take_append_eq_append_take, Nat.sub_eq_zero_of_le hlen,
      List.take_zero, List.append_nil] at heq
    rw [heq]
    exact List.take_prefix _ _
  · intro h
    exact h.trans (List.prefix_append _ _)

theorem occursAt_append_left {pat l₁ : List Char} (l₂ : List Char) {j : Nat}
    (hfit : j + pat.length ≤ l₁.length) :
    occursAt pat (l₁ ++ l₂) j ↔ occursAt pat l₁ j := by
  unfold occursAt
  rw [List.drop_append_eq_append_drop,
    Nat.sub_eq_zero_of_le (by omega : j ≤ l₁.length), List.drop_zero]
  exact prefix_append_iff_of_length_le l₂ (by rw [List.length_drop]; omega)

/-!
## The section splice of `update_readme_status`

`start_marker = "## Dependency Status"`, `end_marker = "##"` (source lines
128-129); the find / find / replace step is source lines 131-147.
-/

def startMk : List Char := "## Dependency Status".toList

def endMk : List Char := "##".toList

/-- The separator `"\n\n"` used both when appending (`content += "\n\n" + …`)
and after the replacement (`… + "\n\n" + content[end_idx:]`). -/
def nl2 : List Char := ['\n', '\n']

/-- The splice step of `update_readme_status`, with `repl` standing for
`"\n".join(status_section)`:

if the start marker is absent, `content += "\n\n" + repl`; otherwise the end
marker is searched from `start_idx + len(start_marker)` (end of document if
absent) and `content[start_idx:end_idx]` is replaced by `repl + "\n\n"`. -/
def spliceReadme (content repl : List Char) : List Char :=
  match pyFind content startMk 0 with
  | none => content ++ nl2 ++ repl
  | some s =>
    let e := (pyFind content endMk (s + startMk.length)).getD content.length
    content.take s ++ repl ++ nl2 ++ content.drop e

/-! Facts about the two concrete markers. -/

theorem startMk_ne_nil : startMk ≠ [] := by decide

theorem endMk_ne_nil : endMk ≠ [] := by decide

theorem startMk_length : startMk.length = 20 := by decide

theorem endMk_length : endMk.length = 2 := by decide

/-- `"## Dependency Status"` has no nontrivial period: dropping `0 < d < 20`
characters never reproduces its first `20 - d` characters. -/
theorem startMk_no_period :
    ∀ d, d < 20 → 0 < d → startMk.drop d ≠ startMk.take (20 - d) := by decide

theorem endMk_eq : endMk = ['#', '#'] := by decide

theorem endMk_not_prefix_nl (xs : List Char) : ¬ endMk <+: '\n' :: xs := by
  rw [endMk_eq, List.cons_prefix_cons]
  rintro ⟨h, -⟩
  exact absurd h (by decide)

theorem endMk_not_prefix_snd_nl (c : Char) (xs : List Char) :
    ¬ endMk <+: c :: '\n' :: xs := by
  rw [endMk_eq, List.cons_prefix_cons]
  rintro ⟨-, h⟩
  rw [List.cons_prefix_cons] at h
  exact absurd h.1 (by decide)

theorem drop_append_right (l₁ l₂ : List Char) (m : Nat) :
    (l₁ ++ l₂).drop (l₁.length + m) = l₂.drop m := by
  rw [List.drop_append_eq_append_drop,
    List.drop_eq_nil_of_le (by omega : l₁.length ≤ l₁.length + m),
    List.nil_append]
  congr 1
  omega

/-- No occurrence of the start marker can straddle the boundary between a
prefix `pre` and a suffix `X` that itself begins with the start marker:
such an occurrence would force a nontrivial period of the marker. -/
theorem no_straddle {pre X : List Char} {j : Nat} (hj : j < pre.length)
    (hjs : pre.length < j + startMk.length) (hX : startMk <+: X)
    (hocc : occursAt startMk (pre ++ X) j) : False := by
  have hlen := startMk_length
  rw [occursAt, List.drop_append_eq_append_drop,
    Nat.sub_eq_zero_of_le (le_of_lt hj), List.drop_zero] at hocc
  have hul : (pre.drop j).length = pre.length - j := List.length_drop _ _
  obtain ⟨t, ht⟩ := hX
  have h1 := List.prefix_iff_eq_take.mp hocc
  rw [hlen, List.take_append_eq_append_take,
    List.take_of_length_le (by omega : (pre.drop j).length ≤ 20)] at h1
  rw [← ht, List.take_append_eq_append_take, hlen,
    Nat.sub_eq_zero_of_le (by omega : 20 - (pre.drop j).length ≤ 20),
    List.take_zero, List.append_nil] at h1
  have hperiod : startMk.drop (pre.drop j).length
      = startMk.take (20 - (pre.drop j).length) := by
    conv_lhs => rw [h1]
    rw [List.drop_left]
  exact startMk_no_period (pre.drop j).length (by omega) (by omega) hperiod

/-- If the end marker does not occur in `repl` at or after position 20, it
does not occur in `repl ++ "\n\n" ++ post` at any position in
`[20, repl.length + 2)` either: the two separator newlines block every
occurrence that is not entirely inside `repl`. -/
theorem no_end_in_inserted {repl : List Char} (post : List Char)
    (hno : ∀ j, startMk.length ≤ j → ¬ occursAt endMk repl j) :
    ∀ m, 20 ≤ m → m < repl.length + 2 →
      ¬ occursAt endMk (repl ++ (nl2 ++ post)) m := by
  intro m hm20 hmlt hocc
  have hnl : nl2 ++ post = '\n' :: '\n' :: post := rfl
  rcases Nat.lt_or_ge (m + 2) (repl.length + 1) with hcase | hcase
  · -- the occurrence lies entirely inside `repl`
    have hfit : m + endMk.length ≤ repl.length := by rw [endMk_length]; omega
    exact hno m (by rw [startMk_length]; omega)
      ((occursAt_append_left _ hfit).mp hocc)
  · have h3 : m = repl.length - 1 ∨ m = repl.length ∨ m = repl.length + 1 := by
      omega
    rw [occursAt, List.drop_append_eq_append_drop] at hocc
    rcases h3 with hm | hm | hm
    · rw [hm, Nat.sub_eq_zero_of_le
          (show repl.length - 1 ≤ repl.length by omega),
        List.drop_zero] at hocc
      obtain ⟨c, hc⟩ := List.length_eq_one.mp
        (by rw [List.length_drop]; omega :
          (repl.drop (repl.length - 1)).length = 1)
      rw [hc, hnl] at hocc
      exact endMk_not_prefix_snd_nl c ('\n' :: post) hocc
    · rw [hm, Nat.sub_self, List.drop_zero, List.drop_length,
        List.nil_append, hnl] at hocc
      exact endMk_not_prefix_nl ('\n' :: post) hocc
    · rw [hm, List.drop_eq_nil_of_le (by omega), List.nil_append,
        (show repl.length + 1 - repl.length = 1 by omega), hnl,
        (show List.drop 1 ('\n' :: '\n' :: post) = '\n' :: post from rfl)]
        at hocc
      exact endMk_not_prefix_nl post hocc

/-- Splicing into a document of the shape `pre ++ repl ++ "\n\n" ++ post` —
the shape produced by a previous splice — is the identity, provided the
start marker occurs nowhere inside `pre`, `repl` begins with the start
marker, the end marker does not occur in `repl` at or after position
`len(start_marker)`, and `post` either begins with the end marker or is
empty. -/
theorem splice_of_standard_form (pre repl post : List Char)
    (hpreocc : ∀ j, ¬ occursAt startMk pre j)
    (hpre : startMk <+: repl)
    (hno : ∀ j, startMk.length ≤ j → ¬ occursAt endMk repl j)
    (hpost : endMk <+: post ∨ post = []) :
    spliceReadme (pre ++ (repl ++ (nl2 ++ post))) repl
      = pre ++ (repl ++ (nl2 ++ post)) := by
  have hlenS := startMk_length
  have hrepl20 : 20 ≤ repl.length := by
    have := hpre.length_le
    omega
  have hoccS : occursAt startMk (pre ++ (repl ++ (nl2 ++ post))) pre.length := by
    rw [occursAt, List.drop_left]
    exact hpre.trans (List.prefix_append _ _)
  have hminS : ∀ j, j < pre.length →
      ¬ occursAt startMk (pre ++ (repl ++ (nl2 ++ post))) j := by
    intro j hj hocc
    rcases Nat.lt_or_ge pre.length (j + startMk.length) with hstraddle | hfit
    · exact no_straddle hj hstraddle (hpre.trans (List.prefix_append _ _)) hocc
    · exact hpreocc j ((occursAt_append_left _ hfit).mp hocc)
  have hfindS : pyFind (pre ++ (repl ++ (nl2 ++ post))) startMk 0
      = some pre.length :=
    pyFind_eq_some_of startMk_ne_nil (Nat.zero_le _) hoccS
      (fun k _ hk => hminS k hk)
  have htake : (pre ++ (repl ++ (nl2 ++ post))).take pre.length = pre :=
    List.take_left _ _
  rcases hpost with hpostP | rfl
  · -- `post` begins with the end marker: the second search finds it again.
    have hoccE : occursAt endMk (pre ++ (repl ++ (nl2 ++ post)))
        (pre.length + (repl.length + 2)) := by
      rw [occursAt, drop_append_right, drop_append_right,
        (show (2:Nat) = nl2.length from rfl), List.drop_left]
      exact hpostP
    have hminE : ∀ k, pre.length + startMk.length ≤ k →
        k < pre.length + (repl.length + 2) →
        ¬ occursAt endMk (pre ++ (repl ++ (nl2 ++ post))) k := by
      intro k hk1 hk2 hocc
      obtain ⟨m, rfl⟩ : ∃ m, k = pre.length + m := ⟨k - pre.length, by omega⟩
      rw [occursAt, drop_append_right, ← occursAt] at hocc
      exact no_end_in_inserted post hno m (by omega) (by omega) hocc
    have hfindE : pyFind (pre ++ (repl ++ (nl2 ++ post))) endMk
        (pre.length + startMk.length) = some (pre.length + (repl.length + 2)) :=
      pyFind_eq_some_of endMk_ne_nil (by omega) hoccE hminE
    have hdrop : (pre ++ (repl ++ (nl2 ++ post))).drop
        (pre.length + (repl.length + 2)) = post := by
      rw [drop_append_right, drop_append_right,
        (show (2:Nat) = nl2.length from rfl), List.drop_left]
    simp only [spliceReadme, hfindS, hfindE, Option.getD_some, htake, hdrop,
      List.append_assoc]
  · -- no end marker anywhere after the inserted section: replace to the end.
    simp only [List.append_nil] at hfindS htake ⊢
    have hNEI := no_end_in_inserted ([] : List Char) hno
    simp only [List.append_nil] at hNEI
    have hlen : (pre ++ (repl ++ nl2)).length
        = pre.length + (repl.length + 2) := by
      simp [nl2]
    have hnoneE : pyFind (pre ++ (repl ++ nl2)) endMk
        (pre.length + startMk.length) = none := by
      apply pyFind_eq_none_of
      intro k hk1 hocc
      rcases Nat.lt_or_ge k (pre.length + (repl.length + 2)) with hlt | hge
      · obtain ⟨m, rfl⟩ : ∃ m, k = pre.length + m := ⟨k - pre.length, by omega⟩
        rw [occursAt, drop_append_right, ← occursAt] at hocc
        exact hNEI m (by omega) (by omega) hocc
      · have := occursAt_length endMk_ne_nil hocc
        rw [hlen, endMk_length] at this
        omega
    have hdrop : (pre ++ (repl ++ nl2)).drop
        (pre ++ (repl ++ nl2)).length = [] :=
      List.drop_length _
    simp only [spliceReadme, hfindS, hnoneE, Option.getD_none, htake, hdrop,
      List.append_assoc, List.append_nil]

/-!
## Claims C1 - C4: the section splice
-/

/-- C1 (amended): for every document in which the start marker occurs — say
first at position `s` — and every replacement text that begins with the
start marker and contains no occurrence of the end marker at or after
position `len(start_marker)`, applying the section splice twice with
identical inputs yields the same document content as applying it once. -/
theorem splice_idempotent (content repl : List Char) (s : Nat)
    (hs : occursAt startMk content s)
    (hmin : ∀ j, j < s → ¬ occursAt startMk content j)
    (hpre : startMk <+: repl)
    (hno : ∀ j, startMk.length ≤ j → ¬ occursAt endMk repl j) :
    spliceReadme (spliceReadme content repl) repl
      = spliceReadme content repl := by
  have hfindS : pyFind content startMk 0 = some s :=
    pyFind_eq_some_of startMk_ne_nil (Nat.zero_le _) hs
      (fun k _ hk => hmin k hk)
  have hpreocc : ∀ j, ¬ occursAt startMk (content.take s) j := by
    intro j hocc
    have hfit := occursAt_length startMk_ne_nil hocc
    have hj : j + startMk.length ≤ s := by
      rw [List.length_take] at hfit
      exact le_trans hfit (min_le_left _ _)
    have hocc' : occursAt startMk content j := by
      rw [← List.take_append_drop s content]
      exact (occursAt_append_left _ hfit).mpr hocc
    exact hmin j (by have := startMk_length; omega) hocc'
  cases hfindE : pyFind content endMk (s + startMk.length) with
  | some e =>
    obtain ⟨he1, he2, -⟩ := pyFind_some hfindE
    have h1 : spliceReadme content repl
        = content.take s ++ (repl ++ (nl2 ++ content.drop e)) := by
      simp only [spliceReadme, hfindS, hfindE, Option.getD_some,
        List.append_assoc]
    rw [h1]
    exact splice_of_standard_form _ _ _ hpreocc hpre hno (Or.inl he2)
  | none =>
    have h1 : spliceReadme content repl
        = content.take s ++ (repl ++ (nl2 ++ ([] : List Char))) := by
      simp only [spliceReadme, hfindS, hfindE, Option.getD_none,
        List.drop_length, List.append_assoc]
    rw [h1]
    exact splice_of_standard_form _ _ [] hpreocc hpre hno (Or.inr rfl)

/-- Witness for `splice_idempotent` at a concrete document and replacement. -/
theorem splice_idempotent_witness :
    spliceReadme
        (spliceReadme ("Intro\n## Dependency Status\nold\n## Other\nkeep".toList)
          ("## Dependency Status\nnew".toList))
        ("## Dependency Status\nnew".toList)
      = spliceReadme ("Intro\n## Dependency Status\nold\n## Other\nkeep".toList)
          ("## Dependency Status\nnew".toList) :=
  splice_idempotent _ _ 6 (by decide) (by decide) (by decide)
    (pyFind_none endMk_ne_nil (by decide))

/-- C1 (counterexample): splicing `"## Dependency Status"` into the empty
document twice does not equal splicing it once — the first application
appends without a trailing separator, the second goes through the replace
branch and adds `"\n\n"`. -/
theorem splice_twice_ne_once_cx :
    spliceReadme (spliceReadme [] ("## Dependency Status".toList))
        ("## Dependency Status".toList)
      ≠ spliceReadme [] ("## Dependency Status".toList) := by
  decide

/-- C2 (confirmed): if the start marker occurs in the document, first at
position `s`, then with `e` either the first end-marker occurrence at or
after `s + len(start_marker)` (so the start marker cannot match itself) or
the document length when there is none, the splice result is
`content[:s] ++ repl ++ "\n\n" ++ content[e:]` — everything before `s` and
at or after `e` is unchanged. -/
theorem splice_replace_branch (content repl : List Char) (s : Nat)
    (hs : occursAt startMk content s)
    (hmin : ∀ j, j < s → ¬ occursAt startMk content j) :
    ∃ e, ((s + startMk.length ≤ e ∧ occursAt endMk content e ∧
            ∀ k, s + startMk.length ≤ k → k < e → ¬ occursAt endMk content k)
          ∨ (e = content.length ∧
            ∀ k, s + startMk.length ≤ k → ¬ occursAt endMk content k)) ∧
      spliceReadme content repl
        = content.take s ++ repl ++ nl2 ++ content.drop e := by
  have hfindS : pyFind content startMk 0 = some s :=
    pyFind_eq_some_of startMk_ne_nil (Nat.zero_le _) hs
      (fun k _ hk => hmin k hk)
  cases hfindE : pyFind content endMk (s + startMk.length) with
  | some e =>
    obtain ⟨he1, he2, he3⟩ := pyFind_some hfindE
    exact ⟨e, Or.inl ⟨he1, he2, he3⟩, by
      simp only [spliceReadme, hfindS, hfindE, Option.getD_some]⟩
  | none =>
    exact ⟨content.length, Or.inr ⟨rfl, pyFind_none endMk_ne_nil hfindE⟩, by
      simp only [spliceReadme, hfindS, hfindE, Option.getD_none]⟩

/-- Witness for `splice_replace_branch` at a concrete document. -/
theorem splice_replace_branch_witness :
    ∃ e, ((2 + startMk.length ≤ e ∧
            occursAt endMk ("A\n## Dependency Status\nold\n## B\nk".toList) e ∧
            ∀ k, 2 + startMk.length ≤ k → k < e →
              ¬ occursAt endMk ("A\n## Dependency Status\nold\n## B\nk".toList) k)
          ∨ (e = ("A\n## Dependency Status\nold\n## B\nk".toList).length ∧
            ∀ k, 2 + startMk.length ≤ k →
              ¬ occursAt endMk ("A\n## Dependency Status\nold\n## B\nk".toList) k)) ∧
      spliceReadme ("A\n## Dependency Status\nold\n## B\nk".toList)
          ("NEW".toList)
        = ("A\n## Dependency Status\nold\n## B\nk".toList).take 2
            ++ "NEW".toList ++ nl2
            ++ ("A\n## Dependency Status\nold\n## B\nk".toList).drop e :=
  splice_replace_branch _ _ 2 (by decide) (by decide)

/-- C3 (confirmed): if the start marker occurs nowhere in the document, the
splice result is the original content followed by `"\n\n"` followed by the
replacement text. -/
theorem splice_absent_appends (content repl : List Char)
    (h : ∀ j, ¬ occursAt startMk content j) :
    spliceReadme content repl = content ++ nl2 ++ repl := by
  have hnone : pyFind content startMk 0 = none :=
    pyFind_eq_none_of (fun k _ => h k)
  simp only [spliceReadme, hnone]

/-- Witness for `splice_absent_appends` at a concrete document. -/
theorem splice_absent_appends_witness :
    spliceReadme ("hello\nworld\n".toList) ("SEC".toList)
      = "hello\nworld\n".toList ++ nl2 ++ "SEC".toList :=
  splice_absent_appends _ _
    (fun j => pyFind_none startMk_ne_nil (by decide) j (Nat.zero_le j))

/-- C4 (counterexample): on the spec's example input the splice does not
produce the claimed output — the claimed output has a single blank line
before the inserted section and a trailing blank line after it. -/
theorem splice_example_cx :
    spliceReadme ("# Title\n\nSome text.\n".toList)
        ("## Dependency Status\nrow1\nrow2".toList)
      ≠ "# Title\n\nSome text.\n\n## Dependency Status\nrow1\nrow2\n\n".toList := by
  decide

/-- C4 (amended): on the spec's example input the splice appends
`"\n\n" ++ repl` to a document that already ends in a newline, producing
three consecutive newlines before the inserted section and nothing after
it. -/
theorem splice_example :
    spliceReadme ("# Title\n\nSome text.\n".toList)
        ("## Dependency Status\nrow1\nrow2".toList)
      = "# Title\n\nSome text.\n\n\n## Dependency Status\nrow1\nrow2".toList := by
  decide

/-!
## JSON values and `check_updates`
-/

/-- Parsed JSON values: the possible results of `json.loads`. -/
inductive Json where
  | null
  | bool (b : Bool)
  | num (n : Int)
  | str (s : String)
  | arr (elems : List Json)
  | obj (fields : List (String × Json))

mutual

/-- Python `==` on parsed JSON values (dict comparison is modelled
field-order-sensitively; the script only ever compares version strings). -/
def jsonEqb : Json → Json → Bool
  | .null, .null => true
  | .bool a, .bool b => a == b
  | .num a, .num b => a == b
  | .str a, .str b => a == b
  | .arr a, .arr b => jsonListEqb a b
  | .obj a, .obj b => jsonObjEqb a b
  | _, _ => false

def jsonListEqb : List Json → List Json → Bool
  | [], [] => true
  | a :: as, b :: bs => jsonEqb a b && jsonListEqb as bs
  | _, _ => false

def jsonObjEqb : List (String × Json) → List (String × Json) → Bool
  | [], [] => true
  | (k, v) :: as, (k2, v2) :: bs => k == k2 && jsonEqb v v2 && jsonObjEqb as bs
  | _, _ => false

end

/-- A Python computation: a value, or an uncaught exception tagged with the
exception class name. -/
inductive PyResult (α : Type) where
  | ok (a : α)
  | exn (e : String)

/-- Python `pkg[key]` for a parsed-JSON `pkg` and a string key: a `KeyError`
when the key is missing from a dict, a `TypeError` when `pkg` is not a
dict (string keys are invalid indices for lists and strings, and numbers,
booleans and `None` are not subscriptable). -/
def pyIndex (j : Json) (key : String) : PyResult Json :=
  match j with
  | .obj fields =>
    match fields.lookup key with
    | some v => .ok v
    | none => .exn "KeyError"
  | _ => .exn "TypeError"

/-- Python `for pkg in packages` on a parsed-JSON value: arrays yield their
elements, strings their one-character substrings, dicts their keys;
numbers, booleans and `None` raise `TypeError`. -/
def pyIter (j : Json) : PyResult (List Json) :=
  match j with
  | .arr elems => .ok elems
  | .str s => .ok (s.toList.map fun c => Json.str (String.mk [c]))
  | .obj fields => .ok (fields.map fun f => Json.str f.1)
  | _ => .exn "TypeError"

/-- The loop of `check_updates`: append
`(pkg["name"], pkg["version"], pkg["latest"])` for each element in order; the
first exception escapes and discards the list built so far. -/
def extractTriples : List Json → PyResult (List (Json × Json × Json))
  | [] => .ok []
  | pkg :: rest =>
    match pyIndex pkg "name" with
    | .exn e => .exn e
    | .ok n =>
      match pyIndex pkg "version" with
      | .exn e => .exn e
      | .ok v =>
        match pyIndex pkg "latest" with
        | .exn e => .exn e
        | .ok l =>
          match extractTriples rest with
          | .exn e => .exn e
          | .ok ts => .ok ((n, v, l) :: ts)

/-- `check_updates` given the parse of the subprocess's stdout (`none` when
`json.loads` raises `JSONDecodeError`, `some j` when the stdout is valid
JSON parsing to `j`).  Returns the updates list (or the escaping
exception) together with the console messages printed.  Only
`JSONDecodeError` is caught. -/
def check_updates (stdoutJson : Option Json) :
    PyResult (List (Json × Json × Json)) × List String :=
  match stdoutJson with
  | none => (.ok [], ["[red]Error parsing poetry output[/red]"])
  | some j =>
    match pyIter j with
    | .exn e => (.exn e, [])
    | .ok pkgs => (extractTriples pkgs, [])

/-- The outcome of `subprocess.run(["poetry", "show", "--outdated",
"--json"], ...)`: the binary may be missing (`FileNotFoundError` escapes
`subprocess.run`, which is called outside the `try` block), or the command
runs, with some exit code and some stdout. -/
inductive Subproc where
  | missing
  | ran (returncode : Int) (stdoutJson : Option Json)

/-- `check_updates` including the subprocess invocation: a missing `poetry`
binary raises an uncaught `FileNotFoundError`; when the command runs, its
exit code is never inspected and only its stdout matters. -/
def run_check_updates :
    Subproc → PyResult (List (Json × Json × Json)) × List String
  | .missing => (.exn "FileNotFoundError", [])
  | .ran _ stdoutJson => check_updates stdoutJson

/-!
## Rendering, the JSON report, the filesystem, and `main`
-/

mutual

/-- Python `repr` of a parsed-JSON value (string escaping is not modelled;
the script only ever renders plain version strings). -/
def pyRepr : Json → List Char
  | .null => "None".toList
  | .bool true => "True".toList
  | .bool false => "False".toList
  | .num n => (toString n).toList
  | .str s => '\'' :: (s.toList ++ ['\''])
  | .arr elems => '[' :: (pyReprList elems ++ [']'])
  | .obj fields => '\x7b' :: (pyReprFields fields ++ ['\x7d'])

def pyReprList : List Json → List Char
  | [] => []
  | [x] => pyRepr x
  | x :: y :: xs => pyRepr x ++ ", ".toList ++ pyReprList (y :: xs)

def pyReprFields : List (String × Json) → List Char
  | [] => []
  | [(k, v)] => ('\'' :: (k.toList ++ ['\''])) ++ ": ".toList ++ pyRepr v
  | (k, v) :: p :: xs =>
    ('\'' :: (k.toList ++ ['\''])) ++ ": ".toList ++ pyRepr v
      ++ ", ".toList ++ pyReprFields (p :: xs)

end

/-- Python `str()` as used by f-string interpolation: strings verbatim,
anything else via `repr`-style rendering. -/
def pyStr : Json → List Char
  | .str s => s.toList
  | j => pyRepr j

/-- One table row of the README status section:
`f"| {name} | {current} | {status}` `|"` with the two-valued status label. -/
def statusRow (t : Json × Json × Json) : List Char :=
  "| ".toList ++ pyStr t.1 ++ " | ".toList ++ pyStr t.2.1 ++ " | ".toList
    ++ (if jsonEqb t.2.1 t.2.2 then "✓ Up to date".toList
        else "⟳ Update available".toList)
    ++ " |".toList

/-- `"\n".join(status_section)`: the rendered replacement text spliced into
the README. -/
def statusSection (today : String)
    (updates : List (Json × Json × Json)) : List Char :=
  List.intercalate ['\n']
    ([("## Dependency Status (Updated: " ++ today ++ ")").toList,
      [],
      "### Core Dependencies".toList,
      "| Package | Version | Status |".toList,
      "|---------|---------|--------|".toList]
      ++ updates.map statusRow)

/-- Contents of a file: text, or the `Json` value a `json.dump` call wrote
(serialisation itself is not re-modelled). -/
inductive FileContent where
  | text (t : List Char)
  | jsonData (j : Json)

/-- `README.md` only ever holds text in this development; reading a report
file as text is never exercised. -/
def FileContent.asText : FileContent → List Char
  | .text t => t
  | .jsonData _ => []

/-- The filesystem: a partial map from paths to file contents. -/
def FS : Type := String → Option FileContent

/-- `open(path, "w")` followed by a full write: the file is created or
completely overwritten, every other path is untouched. -/
def writeFile (fs : FS) (path : String) (c : FileContent) : FS :=
  fun p => if p = path then some c else fs p

/-- One entry of the report's `packages` array:
`{"name": …, "current": …, "latest": …, "needs_update": current != latest}`. -/
def pkgEntry (t : Json × Json × Json) : Json :=
  Json.obj [("name", t.1), ("current", t.2.1), ("latest", t.2.2),
            ("needs_update", Json.bool (! jsonEqb t.2.1 t.2.2))]

/-- The report dict built in `generate_dependency_report`. -/
def reportJson (timestamp : String)
    (updates : List (Json × Json × Json)) : Json :=
  Json.obj [("timestamp", Json.str timestamp),
            ("packages", Json.arr (updates.map pkgEntry))]

/-- `generate_dependency_report(output_file)`.  The console table display and
the unused `get_installed_packages()` call are not traced; `timestamp`
stands for `datetime.now().isoformat()`.  Returns the new filesystem, the
printed messages, and (for stating the single-run invariant) the updates
list this step consumed. -/
def generate_dependency_report (fs : FS) (timestamp : String) (sub : Subproc)
    (outputFile : Option String) :
    PyResult (FS × List String × List (Json × Json × Json)) :=
  match run_check_updates sub with
  | (.exn e, _) => .exn e
  | (.ok updates, msgs) =>
    match outputFile with
    | none => .ok (fs, msgs, updates)
    | some path =>
      .ok (writeFile fs path (.jsonData (reportJson timestamp updates)),
        msgs ++ ["Report saved to: " ++ path], updates)

/-- `update_readme_status()`: if `README.md` does not exist, print a
diagnostic and return with nothing written; otherwise query the tool again,
render the status section, splice it into the document and write it back.
`today` stands for `datetime.now().strftime("%Y-%m-%d")`. -/
def update_readme_status (fs : FS) (today : String) (sub : Subproc) :
    PyResult (FS × List String × List (Json × Json × Json)) :=
  match fs "README.md" with
  | none => .ok (fs, ["[red]README.md not found[/red]"], [])
  | some content =>
    match run_check_updates sub with
    | (.exn e, _) => .exn e
    | (.ok updates, msgs) =>
      .ok (writeFile fs "README.md"
          (.text (spliceReadme content.asText (statusSection today updates))),
        msgs ++ ["[green]Updated dependency status in README.md[/green]"],
        updates)

/-- The observable outcome of one run of `main`: final filesystem, console
messages, and the updates sequences consumed by the report step and by the
README step. -/
structure RunTrace where
  fs : FS
  prints : List String
  reportUpdates : List (Json × Json × Json)
  readmeUpdates : List (Json × Json × Json)

/-- `reports/dependencies/dependency_report_<YYYYMMDD>.json`. -/
def reportPath (today : String) : String :=
  "reports/dependencies/dependency_report_" ++ today ++ ".json"

/-- `main()`.  It takes two `Subproc` outcomes because `check_updates` is
invoked twice: once inside `generate_dependency_report` and once inside
`update_readme_status`. -/
def main (fs : FS) (today timestamp : String) (sub1 sub2 : Subproc) :
    PyResult RunTrace :=
  match generate_dependency_report fs timestamp sub1
      (some (reportPath today)) with
  | .exn e => .exn e
  | .ok (fs1, msgs1, updates1) =>
    match update_readme_status fs1 today sub2 with
    | .exn e => .exn e
    | .ok (fs2, msgs2, updates2) =>
      .ok ⟨fs2,
        msgs1 ++ msgs2
          ++ ["1. Generated dependency report: " ++ reportPath today,
              "2. Updated README.md with current status"],
        updates1, updates2⟩

/-!
## Claims C5 - C10
-/

/-- A sequence of `(name, current, latest)` string triples as the parsed
JSON values `check_updates` returns for them. -/
def strTriples (updates : List (String × String × String)) :
    List (Json × Json × Json) :=
  updates.map fun t => (Json.str t.1, Json.str t.2.1, Json.str t.2.2)

/-- C5 (confirmed): for every ordered sequence of string triples handed to
the report writer, the written report's `packages` array has the same
length and order as the input, each entry carries the `name`, `current`,
`latest` and `needs_update` fields with `needs_update` true iff the two
version strings differ, and the file at the target path holds exactly this
report afterwards, whatever it held before. -/
theorem report_writer_spec (fs : FS) (timestamp : String) (sub : Subproc)
    (path : String) (updates : List (String × String × String))
    (msgs : List String)
    (h : run_check_updates sub = (.ok (strTriples updates), msgs)) :
    ∃ fs' msgs',
      generate_dependency_report fs timestamp sub (some path)
        = .ok (fs', msgs', strTriples updates) ∧
      fs' path = some (.jsonData (reportJson timestamp (strTriples updates))) ∧
      ∃ pkgs : List Json,
        reportJson timestamp (strTriples updates)
          = Json.obj [("timestamp", Json.str timestamp),
                      ("packages", Json.arr pkgs)] ∧
        pkgs.length = updates.length ∧
        ∀ i (hi : i < updates.length), ∃ b : Bool,
          pkgs[i]? = some (Json.obj
            [("name", Json.str (updates[i]).1),
             ("current", Json.str (updates[i]).2.1),
             ("latest", Json.str (updates[i]).2.2),
             ("needs_update", Json.bool b)]) ∧
          (b = true ↔ (updates[i]).2.1 ≠ (updates[i]).2.2) := by
  refine ⟨writeFile fs path (.jsonData (reportJson timestamp (strTriples updates))),
    msgs ++ ["Report saved to: " ++ path], ?_, ?_, ?_⟩
  · simp only [generate_dependency_report, h]
  · simp [writeFile]
  · refine ⟨(strTriples updates).map pkgEntry, rfl, ?_, ?_⟩
    · simp [strTriples]
    · intro i hi
      refine ⟨!((updates[i]).2.1 == (updates[i]).2.2), ?_, ?_⟩
      · have hi' : i < (strTriples updates).length := by
          simpa [strTriples] using hi
        rw [List.getElem?_map, List.getElem?_eq_getElem hi']
        simp [strTriples, pkgEntry, jsonEqb]
      · simp

/-- Witness for `report_writer_spec` on a one-package sequence. -/
theorem report_writer_spec_witness :
    ∃ fs' msgs',
      generate_dependency_report (fun _ => none) "T"
          (.ran 0 (some (Json.arr [Json.obj
            [("name", Json.str "rich"), ("version", Json.str "1"),
             ("latest", Json.str "2")]])))
          (some "out.json")
        = .ok (fs', msgs', strTriples [("rich", "1", "2")]) ∧
      fs' "out.json"
        = some (.jsonData (reportJson "T" (strTriples [("rich", "1", "2")]))) ∧
      ∃ pkgs : List Json,
        reportJson "T" (strTriples [("rich", "1", "2")])
          = Json.obj [("timestamp", Json.str "T"),
                      ("packages", Json.arr pkgs)] ∧
        pkgs.length = [("rich", "1", "2")].length ∧
        ∀ i (hi : i < [("rich", "1", "2")].length), ∃ b : Bool,
          pkgs[i]? = some (Json.obj
            [("name", Json.str ([("rich", "1", "2")][i]).1),
             ("current", Json.str ([("rich", "1", "2")][i]).2.1),
             ("latest", Json.str ([("rich", "1", "2")][i]).2.2),
             ("needs_update", Json.bool b)]) ∧
          (b = true ↔ ([("rich", "1", "2")][i]).2.1
            ≠ ([("rich", "1", "2")][i]).2.2) :=
  report_writer_spec _ "T" _ "out.json" [("rich", "1", "2")] [] rfl

/-- C6 (confirmed): whenever the command runs but its stdout is not valid
JSON (`json.loads` raises `JSONDecodeError`), `check_updates` returns the
empty sequence and prints the parse-error diagnostic, and no exception
escapes — whatever the exit code was. -/
theorem check_updates_invalid_json (rc : Int) :
    run_check_updates (.ran rc none)
      = (.ok [], ["[red]Error parsing poetry output[/red]"]) := rfl

/-- C7 (counterexample): when the `poetry` binary is missing,
`FileNotFoundError` escapes the query uncaught — the result is an
exception, not a recovered empty sequence, and no diagnostic is printed. -/
theorem check_updates_missing_binary_cx :
    run_check_updates Subproc.missing = (.exn "FileNotFoundError", []) ∧
      run_check_updates Subproc.missing
        ≠ (.ok [], ["[red]Error parsing poetry output[/red]"]) :=
  ⟨rfl, fun h => PyResult.noConfusion (congrArg Prod.fst h)⟩

/-- C7 (amended): when the command runs but emits output that is not valid
JSON — which covers the non-zero-exit failure modes, whose stdout is not a
JSON document — the query recovers locally with an empty result and a
diagnostic and no exception escapes; a missing binary instead raises an
uncaught `FileNotFoundError`. -/
theorem check_updates_failure_modes (rc : Int) :
    run_check_updates (.ran rc none)
        = (.ok [], ["[red]Error parsing poetry output[/red]"])
      ∧ run_check_updates Subproc.missing = (.exn "FileNotFoundError", []) :=
  ⟨rfl, rfl⟩

/-- The trace of a run that completed normally (an arbitrary empty trace
for a crashed run). -/
def traceOf : PyResult RunTrace → RunTrace
  | .ok tr => tr
  | .exn _ => ⟨fun _ => none, [], [], []⟩

theorem reportPath_ne_readme (today : String) :
    reportPath today ≠ "README.md" := by
  intro h
  have h2 := congrArg String.length h
  rw [reportPath, String.length_append, String.length_append] at h2
  have e1 : ("reports/dependencies/dependency_report_").length = 39 := by
    decide
  have e2 : (".json").length = 5 := by decide
  have e3 : ("README.md").length = 9 := by decide
  omega

/-- C8 (counterexample): the external tool is queried once per consumer,
not once per run: in a run whose first invocation reports one outdated
package and whose second reports none, the sequence written to the report
differs from the sequence rendered into the README section. -/
theorem run_requeries_cx :
    (traceOf (main
        (fun p => if p = "README.md" then some (.text []) else none) "D" "T"
        (.ran 0 (some (Json.arr [Json.obj
          [("name", Json.str "rich"), ("version", Json.str "1"),
           ("latest", Json.str "2")]])))
        (.ran 0 (some (Json.arr []))))).reportUpdates
      ≠ (traceOf (main
        (fun p => if p = "README.md" then some (.text []) else none) "D" "T"
        (.ran 0 (some (Json.arr [Json.obj
          [("name", Json.str "rich"), ("version", Json.str "1"),
           ("latest", Json.str "2")]])))
        (.ran 0 (some (Json.arr []))))).readmeUpdates :=
  fun h => List.noConfusion h

/-- C8 (amended): the tool is queried twice per run, once by each consumer;
whenever the two invocations return the same outcome (in particular when
the external state does not change between them), the sequences consumed by
the report step and by the README step are identical and
order-preserving. -/
theorem main_consumes_identical_updates (fs : FS) (today timestamp : String)
    (sub : Subproc) (c : FileContent) (tr : RunTrace)
    (hR : fs "README.md" = some c)
    (h : main fs today timestamp sub sub = .ok tr) :
    tr.reportUpdates = tr.readmeUpdates := by
  rcases hrun : run_check_updates sub with ⟨r, msgs⟩
  cases r with
  | exn e =>
    simp only [main, generate_dependency_report, hrun] at h
    exact PyResult.noConfusion h
  | ok updates =>
    have hfs1 : writeFile fs (reportPath today)
        (.jsonData (reportJson timestamp updates)) "README.md" = some c := by
      simp only [writeFile]
      rw [if_neg (fun hq => reportPath_ne_readme today hq.symm)]
      exact hR
    simp only [main, generate_dependency_report, update_readme_status, hrun,
      hfs1] at h
    cases h
    rfl

/-- Witness for `main_consumes_identical_updates` on a concrete run. -/
theorem main_consumes_identical_updates_witness :
    ∃ tr, main (fun p => if p = "README.md" then some (.text []) else none)
        "D" "T" (.ran 0 (some (Json.arr []))) (.ran 0 (some (Json.arr [])))
        = .ok tr
      ∧ tr.reportUpdates = tr.readmeUpdates :=
  ⟨_, rfl, main_consumes_identical_updates
    (fun p => if p = "README.md" then some (.text []) else none) "D" "T"
    (.ran 0 (some (Json.arr []))) (.text []) _ rfl rfl⟩

/-- C9 (confirmed): when `README.md` does not exist, `update_readme_status`
prints a diagnostic and returns with the filesystem untouched, and the run
as a whole still succeeds: the report is written and `main` completes
normally, changing nothing outside the report path. -/
theorem readme_missing_skips_update (fs : FS) (today timestamp : String)
    (sub1 sub2 : Subproc) (updates : List (Json × Json × Json))
    (msgs : List String)
    (hR : fs "README.md" = none)
    (hq : run_check_updates sub1 = (.ok updates, msgs)) :
    update_readme_status fs today sub2
        = .ok (fs, ["[red]README.md not found[/red]"], []) ∧
      ∃ tr, main fs today timestamp sub1 sub2 = .ok tr ∧
        tr.fs (reportPath today)
          = some (.jsonData (reportJson timestamp updates)) ∧
        tr.fs "README.md" = none ∧
        "[red]README.md not found[/red]" ∈ tr.prints ∧
        ∀ p, p ≠ reportPath today → tr.fs p = fs p := by
  have hfs1R : writeFile fs (reportPath today)
      (.jsonData (reportJson timestamp updates)) "README.md" = none := by
    simp only [writeFile]
    rw [if_neg (fun hq2 => reportPath_ne_readme today hq2.symm)]
    exact hR
  refine ⟨?_, ⟨writeFile fs (reportPath today)
      (.jsonData (reportJson timestamp updates)),
      (msgs ++ ["Report saved to: " ++ reportPath today])
        ++ (["[red]README.md not found[/red]"]
          ++ ["1. Generated dependency report: " ++ reportPath today,
              "2. Updated README.md with current status"]),
      updates, []⟩, ?_, ?_, ?_, ?_, ?_⟩
  · simp only [update_readme_status, hR]
  · simp only [main, generate_dependency_report, update_readme_status, hq,
      hfs1R, List.append_assoc]
  · simp [writeFile]
  · exact hfs1R
  · simp
  · intro p hp
    simp [writeFile, hp]

/-- Witness for `readme_missing_skips_update` on a concrete run with no
`README.md` and non-JSON tool output. -/
theorem readme_missing_skips_update_witness :
    update_readme_status (fun _ => none) "D" (.ran 0 none)
        = .ok (fun _ => none, ["[red]README.md not found[/red]"], []) ∧
      ∃ tr, main (fun _ => none) "D" "T" (.ran 0 none) (.ran 0 none)
          = .ok tr ∧
        tr.fs (reportPath "D") = some (.jsonData (reportJson "T" [])) ∧
        tr.fs "README.md" = none ∧
        "[red]README.md not found[/red]" ∈ tr.prints ∧
        ∀ p, p ≠ reportPath "D" → tr.fs p = (fun _ => none : FS) p :=
  readme_missing_skips_update (fun _ => none) "D" "T" (.ran 0 none)
    (.ran 0 none) [] ["[red]Error parsing poetry output[/red]"] rfl rfl

/-- C10 (confirmed): valid JSON of the wrong shape escapes `check_updates`
as an uncaught exception: an array containing an object without a `"name"`
key raises `KeyError`, a non-iterable top-level value raises `TypeError`,
and such an exception propagates out of `main`, crashing the run. -/
theorem check_updates_wrong_shape_raises :
    check_updates (some (Json.arr [Json.obj []])) = (.exn "KeyError", []) ∧
      check_updates (some (Json.num 3)) = (.exn "TypeError", []) ∧
      main (fun _ => none) "D" "T"
          (.ran 0 (some (Json.arr [Json.obj []]))) (.ran 0 none)
        = .exn "KeyError" :=
  ⟨rfl, rfl, rfl⟩

end ManageDeps
